import Mathlib

/-!
Shallow embedding of the analog-input module of fishfight/fishsticks
(src/analog.rs) and proofs about it.

Modelling choices:
- `f32` values are modelled by `ℚ`.  Every operation the module performs
  on stored values — absolute value, order comparisons, clamping into
  [-1, 1], and sign comparison via `signum` — is exact on IEEE floats,
  so the rational model has the same observable behaviour.  Non-finite
  floating-point samples (NaN, ±∞), which the code sanitizes on
  construction, are represented explicitly by the `F32Sample` inductive.
- `HashMap<T, V>` is modelled as `T → Option V` and `HashSet<T>` as
  `T → Bool`; insertion and removal are pointwise updates.
- Rust's `f32::signum` returns 1.0 for positive values (and +0.0) and
  -1.0 for negative values; `ℚ` has no negative zero, so the model maps
  nonnegative rationals to 1 and negative ones to -1.  In the module the
  sign test is only consulted on values whose magnitude reaches a
  threshold, so the negative-zero case is unobservable whenever the
  configured thresholds are positive (they are 0.1 and 0.5 by default
  and are never mutated).
-/

namespace Fishsticks

/-- The minimum value of an analog input (ANALOG_MIN in the source). -/
def ANALOG_MIN : ℚ := -1

/-- The maximum value of an analog input (ANALOG_MAX in the source). -/
def ANALOG_MAX : ℚ := 1

/-- Rust's `f32::clamp(lo, hi)` on finite values: `lo` if the value is
below `lo`, `hi` if above `hi`, the value itself otherwise. -/
def rustClamp (x lo hi : ℚ) : ℚ :=
  if x < lo then lo else if x > hi then hi else x

/-- Rust's `f32::signum` on finite nonzero values of the model (see the
module comment for the negative-zero discussion). -/
def f32Signum (q : ℚ) : ℚ :=
  if q < 0 then -1 else 1

/-- Wrapper around the scalar value of an analog input
(`struct AnalogInputValue(f32)` in the source). -/
structure AnalogInputValue where
  val : ℚ
deriving DecidableEq

/-- A floating-point sample as passed to `From<f32> for AnalogInputValue`:
either a finite value or one of the non-finite classes. -/
inductive F32Sample where
  | finite (q : ℚ)
  | nan
  | posInf
  | negInf
deriving DecidableEq

/-- Whether a sample `is_finite()` holds. -/
def F32Sample.isFinite : F32Sample → Bool
  | .finite _ => true
  | _ => false

/-- `impl From<i16> for AnalogInputValue`: divide by `i16::MAX` (32767)
and clamp into [ANALOG_MIN, ANALOG_MAX].  The argument is the integer
sample as a mathematical integer; 16-bit claims restrict it to
[-32768, 32767]. -/
def AnalogInputValue.fromI16 (value : Int) : AnalogInputValue :=
  ⟨rustClamp ((value : ℚ) / 32767) ANALOG_MIN ANALOG_MAX⟩

/-- `impl From<f32> for AnalogInputValue`: clamp finite samples into
[ANALOG_MIN, ANALOG_MAX], send non-finite samples to 0.0. -/
def AnalogInputValue.fromF32 (value : F32Sample) : AnalogInputValue :=
  match value with
  | .finite q => ⟨rustClamp q ANALOG_MIN ANALOG_MAX⟩
  | _ => ⟨0⟩

/-- Wrapper around a magnitude used for deadzone comparisons
(`struct Deadzone(f32)` in the source). -/
structure Deadzone where
  mag : ℚ
deriving DecidableEq

/-- `impl From<AnalogInputValue> for Deadzone`: take the absolute value. -/
def Deadzone.fromValue (value : AnalogInputValue) : Deadzone :=
  ⟨|value.val|⟩

/-- The container for analog inputs (`struct AnalogInput<T>`).  The hash
map of inputs is a function to `Option`, the four hash sets are boolean
membership functions. -/
structure AnalogInput (T : Type) where
  inputs : T → Option AnalogInputValue
  just_activated : T → Bool
  just_deactivated : T → Bool
  deadzone : Deadzone
  just_activated_digital : T → Bool
  just_deactivated_digital : T → Bool
  deadzone_digital : Deadzone

/-- `HashSet::insert` on the membership-function model. -/
def insertKey {T : Type} [DecidableEq T] (s : T → Bool) (k : T) : T → Bool :=
  fun x => if x = k then true else s x

/-- `HashSet::remove` on the membership-function model. -/
def removeKey {T : Type} [DecidableEq T] (s : T → Bool) (k : T) : T → Bool :=
  fun x => if x = k then false else s x

/-- `HashMap::insert` on the map-function model (the old binding, which
the Rust call returns, is read off separately as `m k`). -/
def insertMap {T : Type} [DecidableEq T] (m : T → Option AnalogInputValue)
    (k : T) (v : AnalogInputValue) : T → Option AnalogInputValue :=
  fun x => if x = k then some v else m x

namespace AnalogInput

variable {T : Type} [DecidableEq T]

/-- `AnalogInput::value`: the stored value when its magnitude strictly
exceeds the analog deadzone, else 0.0 (also for unread keys). -/
def value (self : AnalogInput T) (input : T) : ℚ :=
  match self.inputs input with
  | some v => if (Deadzone.fromValue v).mag > self.deadzone.mag then v.val else 0
  | none => 0

/-- `AnalogInput::just_activated`: `Some (value input)` when the key is
in the analog activated set, else `None`. -/
def justActivated (self : AnalogInput T) (input : T) : Option ℚ :=
  if self.just_activated input then some (self.value input) else none

/-- `AnalogInput::just_deactivated`: membership in the analog
deactivated set. -/
def justDeactivated (self : AnalogInput T) (input : T) : Bool :=
  self.just_deactivated input

/-- `AnalogInput::value_digital`: ANALOG_MIN or ANALOG_MAX when the
stored magnitude strictly exceeds the digital deadzone (by the sign of
the stored value), else 0.0. -/
def valueDigital (self : AnalogInput T) (input : T) : ℚ :=
  match self.inputs input with
  | some v =>
      if (Deadzone.fromValue v).mag > self.deadzone_digital.mag then
        if v.val < 0 then ANALOG_MIN else ANALOG_MAX
      else 0
  | none => 0

/-- `AnalogInput::just_activated_digital`: `Some (value_digital input)`
when the key is in the digital activated set, else `None`. -/
def justActivatedDigital (self : AnalogInput T) (input : T) : Option ℚ :=
  if self.just_activated_digital input then some (self.valueDigital input) else none

/-- `AnalogInput::just_deactivated_digital`: membership in the digital
deactivated set. -/
def justDeactivatedDigital (self : AnalogInput T) (input : T) : Bool :=
  self.just_deactivated_digital input

/-- `AnalogInput::set`: stores the new sample and recomputes membership
in the four transition sets, following the source line by line. -/
def set (self : AnalogInput T) (input : T) (value : AnalogInputValue) :
    AnalogInput T :=
  let old_value := self.inputs input
  let inputs := insertMap self.inputs input value
  let v := value.val
  let deadzone := self.deadzone.mag
  let deadzone_digital := self.deadzone_digital.mag
  match old_value with
  | some old_value =>
      let old := old_value.val
      { inputs := inputs
        just_activated :=
          if |v| < deadzone then
            removeKey self.just_activated input
          else if |old| < deadzone ∨ f32Signum v ≠ f32Signum old then
            insertKey self.just_activated input
          else
            self.just_activated
        just_deactivated :=
          if |v| < deadzone then
            if |old| ≥ deadzone then insertKey self.just_deactivated input
            else self.just_deactivated
          else
            removeKey self.just_deactivated input
        deadzone := self.deadzone
        just_activated_digital :=
          if |v| < deadzone_digital then
            removeKey self.just_activated_digital input
          else if |old| < deadzone_digital ∨ f32Signum v ≠ f32Signum old then
            insertKey self.just_activated_digital input
          else
            self.just_activated_digital
        just_deactivated_digital :=
          if |v| < deadzone_digital then
            if |old| ≥ deadzone_digital then insertKey self.just_deactivated_digital input
            else self.just_deactivated_digital
          else
            removeKey self.just_deactivated_digital input
        deadzone_digital := self.deadzone_digital }
  | none =>
      { inputs := inputs
        just_activated :=
          if |v| ≥ deadzone then insertKey self.just_activated input
          else self.just_activated
        just_deactivated :=
          if |v| ≥ deadzone then removeKey self.just_deactivated input
          else self.just_deactivated
        deadzone := self.deadzone
        just_activated_digital :=
          if |v| ≥ deadzone_digital then insertKey self.just_activated_digital input
          else self.just_activated_digital
        just_deactivated_digital :=
          if |v| ≥ deadzone_digital then removeKey self.just_deactivated_digital input
          else self.just_deactivated_digital
        deadzone_digital := self.deadzone_digital }

/-- `AnalogInput::update`: clears the four transition sets. -/
def update (self : AnalogInput T) : AnalogInput T :=
  { self with
    just_activated := fun _ => false
    just_deactivated := fun _ => false
    just_activated_digital := fun _ => false
    just_deactivated_digital := fun _ => false }

end AnalogInput

/-- `DEFAULT_DEADZONE` (0.1 in the source). -/
def DEFAULT_DEADZONE : Deadzone := ⟨1/10⟩

/-- `DEFAULT_DEADZONE_DIGITAL` (0.5 in the source). -/
def DEFAULT_DEADZONE_DIGITAL : Deadzone := ⟨1/2⟩

/-- `impl Default for AnalogInput<T>`: empty map, empty transition sets,
default deadzones. -/
def AnalogInput.mkDefault (T : Type) : AnalogInput T :=
  { inputs := fun _ => none
    just_activated := fun _ => false
    just_deactivated := fun _ => false
    deadzone := DEFAULT_DEADZONE
    just_activated_digital := fun _ => false
    just_deactivated_digital := fun _ => false
    deadzone_digital := DEFAULT_DEADZONE_DIGITAL }

/-- States reachable from the default container by `set` and `update`. -/
inductive Reachable {T : Type} [DecidableEq T] : AnalogInput T → Prop where
  | mkDefault : Reachable (AnalogInput.mkDefault T)
  | set (s : AnalogInput T) (input : T) (value : AnalogInputValue) :
      Reachable s → Reachable (s.set input value)
  | update (s : AnalogInput T) : Reachable s → Reachable s.update

namespace AnalogInput

variable {T : Type} [DecidableEq T]

/-- The map after `set` is the pointwise insertion. -/
theorem set_inputs (s : AnalogInput T) (input : T) (v : AnalogInputValue) :
    (s.set input v).inputs = insertMap s.inputs input v := by
  cases h : s.inputs input <;> simp [set, h]

/-- `set` does not change the analog deadzone. -/
theorem set_deadzone (s : AnalogInput T) (input : T) (v : AnalogInputValue) :
    (s.set input v).deadzone = s.deadzone := by
  cases h : s.inputs input <;> simp [set, h]

/-- `set` does not change the digital deadzone. -/
theorem set_deadzone_digital (s : AnalogInput T) (input : T) (v : AnalogInputValue) :
    (s.set input v).deadzone_digital = s.deadzone_digital := by
  cases h : s.inputs input <;> simp [set, h]

/-- Membership of the set key in the analog activated set after `set`. -/
theorem set_just_activated_self (s : AnalogInput T) (input : T) (v : AnalogInputValue) :
    (s.set input v).just_activated input =
      match s.inputs input with
      | some ov =>
          if |v.val| < s.deadzone.mag then false
          else if |ov.val| < s.deadzone.mag ∨ f32Signum v.val ≠ f32Signum ov.val then true
          else s.just_activated input
      | none => if |v.val| ≥ s.deadzone.mag then true else s.just_activated input := by
  cases h : s.inputs input <;>
    simp only [set, h] <;> split_ifs <;> simp [insertKey, removeKey]

/-- Membership of the set key in the analog deactivated set after `set`. -/
theorem set_just_deactivated_self (s : AnalogInput T) (input : T) (v : AnalogInputValue) :
    (s.set input v).just_deactivated input =
      match s.inputs input with
      | some ov =>
          if |v.val| < s.deadzone.mag then
            if |ov.val| ≥ s.deadzone.mag then true else s.just_deactivated input
          else false
      | none => if |v.val| ≥ s.deadzone.mag then false else s.just_deactivated input := by
  cases h : s.inputs input <;>
    simp only [set, h] <;> split_ifs <;> simp [insertKey, removeKey]

/-- Membership of the set key in the digital activated set after `set`. -/
theorem set_just_activated_digital_self (s : AnalogInput T) (input : T) (v : AnalogInputValue) :
    (s.set input v).just_activated_digital input =
      match s.inputs input with
      | some ov =>
          if |v.val| < s.deadzone_digital.mag then false
          else if |ov.val| < s.deadzone_digital.mag ∨ f32Signum v.val ≠ f32Signum ov.val then true
          else s.just_activated_digital input
      | none => if |v.val| ≥ s.deadzone_digital.mag then true
                else s.just_activated_digital input := by
  cases h : s.inputs input <;>
    simp only [set, h] <;> split_ifs <;> simp [insertKey, removeKey]

/-- Membership of the set key in the digital deactivated set after `set`. -/
theorem set_just_deactivated_digital_self (s : AnalogInput T) (input : T) (v : AnalogInputValue) :
    (s.set input v).just_deactivated_digital input =
      match s.inputs input with
      | some ov =>
          if |v.val| < s.deadzone_digital.mag then
            if |ov.val| ≥ s.deadzone_digital.mag then true
            else s.just_deactivated_digital input
          else false
      | none => if |v.val| ≥ s.deadzone_digital.mag then false
                else s.just_deactivated_digital input := by
  cases h : s.inputs input <;>
    simp only [set, h] <;> split_ifs <;> simp [insertKey, removeKey]

/-- Keys other than the set key keep their transition-set membership. -/
theorem set_other (s : AnalogInput T) (input : T) (v : AnalogInputValue)
    (k : T) (hk : k ≠ input) :
    (s.set input v).just_activated k = s.just_activated k ∧
    (s.set input v).just_deactivated k = s.just_deactivated k ∧
    (s.set input v).just_activated_digital k = s.just_activated_digital k ∧
    (s.set input v).just_deactivated_digital k = s.just_deactivated_digital k := by
  cases h : s.inputs input <;>
    simp only [set, h] <;> split_ifs <;> simp [insertKey, removeKey, hk]

end AnalogInput

/-- The clamp of any rational into a nonempty closed range lies in it. -/
theorem rustClamp_mem (x lo hi : ℚ) (h : lo ≤ hi) :
    lo ≤ rustClamp x lo hi ∧ rustClamp x lo hi ≤ hi := by
  unfold rustClamp
  split_ifs <;> constructor <;> linarith

/-- Claim C6: floating-point construction sends every non-finite sample
to exactly 0.0 and clamps every finite sample into [-1.0, 1.0]; every
constructed value (from either conversion) lies in [-1.0, 1.0]. -/
theorem fromF32_sanitizes :
    (AnalogInputValue.fromF32 .nan).val = 0 ∧
    (AnalogInputValue.fromF32 .posInf).val = 0 ∧
    (AnalogInputValue.fromF32 .negInf).val = 0 ∧
    (∀ q : ℚ, (AnalogInputValue.fromF32 (.finite q)).val =
      rustClamp q ANALOG_MIN ANALOG_MAX) ∧
    (∀ x : F32Sample, ANALOG_MIN ≤ (AnalogInputValue.fromF32 x).val ∧
      (AnalogInputValue.fromF32 x).val ≤ ANALOG_MAX) ∧
    (∀ x : Int, ANALOG_MIN ≤ (AnalogInputValue.fromI16 x).val ∧
      (AnalogInputValue.fromI16 x).val ≤ ANALOG_MAX) := by
  refine ⟨rfl, rfl, rfl, fun q => rfl, fun x => ?_, fun x => ?_⟩
  · cases x <;> simp [AnalogInputValue.fromF32, ANALOG_MIN, ANALOG_MAX] <;>
      exact rustClamp_mem _ _ _ (by norm_num [ANALOG_MIN, ANALOG_MAX])
  · exact rustClamp_mem _ _ _ (by norm_num [ANALOG_MIN, ANALOG_MAX])

/-- Claim C7: integer construction divides the 16-bit sample by 32767
and clamps into [-1.0, 1.0]; the minimum sample -32768 yields exactly
-1.0 after clamping. -/
theorem fromI16_divides_and_clamps (x : Int) (_h1 : -32768 ≤ x) (_h2 : x ≤ 32767) :
    (AnalogInputValue.fromI16 x).val = rustClamp ((x : ℚ) / 32767) (-1) 1 ∧
    (AnalogInputValue.fromI16 (-32768)).val = -1 := by
  constructor
  · rfl
  · norm_num [AnalogInputValue.fromI16, rustClamp, ANALOG_MIN, ANALOG_MAX]

/-- Witness for claim C7 at the concrete sample -32768. -/
theorem fromI16_divides_and_clamps_witness :
    (-32768 : Int) ≤ 32767 ∧ (AnalogInputValue.fromI16 (-32768)).val = -1 :=
  ⟨by norm_num, (fromI16_divides_and_clamps (-32768) (by norm_num) (by norm_num)).2⟩

/-- Claim C8: update clears all four transition sets and leaves the
inputs map and both deadzones unchanged, so afterwards every
transition-set query returns none or false for every key. -/
theorem update_clears_transitions {T : Type} [DecidableEq T]
    (s : AnalogInput T) (k : T) :
    s.update.inputs = s.inputs ∧
    s.update.deadzone = s.deadzone ∧
    s.update.deadzone_digital = s.deadzone_digital ∧
    s.update.justActivated k = none ∧
    s.update.justDeactivated k = false ∧
    s.update.justActivatedDigital k = none ∧
    s.update.justDeactivatedDigital k = false :=
  ⟨rfl, rfl, rfl, rfl, rfl, rfl, rfl⟩

/-- Claim C9: update is idempotent: a second update yields the same
state, and every query returns the same result after the second call as
after the first. -/
theorem update_idempotent {T : Type} [DecidableEq T] (s : AnalogInput T) (k : T) :
    s.update.update = s.update ∧
    s.update.update.value k = s.update.value k ∧
    s.update.update.valueDigital k = s.update.valueDigital k ∧
    s.update.update.justActivated k = s.update.justActivated k ∧
    s.update.update.justDeactivated k = s.update.justDeactivated k ∧
    s.update.update.justActivatedDigital k = s.update.justActivatedDigital k ∧
    s.update.update.justDeactivatedDigital k = s.update.justDeactivatedDigital k :=
  ⟨rfl, rfl, rfl, rfl, rfl, rfl, rfl⟩

/-- Claim C1: if a key has a stored sample whose magnitude is at or
above a threshold and a new sample also at or above that threshold has
the opposite sign, the set call adds the key to the corresponding
activated set (analog and digital independently); concretely, on a
default container, set(key, 0.8) then set(key, -0.8) with no update
between yields just_activated(key) = some (-0.8). -/
theorem set_sign_flip_reactivates {T : Type} [DecidableEq T]
    (s : AnalogInput T) (input : T) (ov v : AnalogInputValue)
    (hov : s.inputs input = some ov)
    (hsign : f32Signum v.val ≠ f32Signum ov.val) :
    (s.deadzone.mag ≤ |ov.val| → s.deadzone.mag ≤ |v.val| →
      (s.set input v).just_activated input = true) ∧
    (s.deadzone_digital.mag ≤ |ov.val| → s.deadzone_digital.mag ≤ |v.val| →
      (s.set input v).just_activated_digital input = true) ∧
    (((AnalogInput.mkDefault Nat).set 0 (AnalogInputValue.fromF32 (.finite (4/5)))).set 0
      (AnalogInputValue.fromF32 (.finite (-(4/5))))).justActivated 0 = some (-(4/5)) := by
  refine ⟨fun hold hnew => ?_, fun hold hnew => ?_, ?_⟩
  · rw [AnalogInput.set_just_activated_self, hov]
    simp [not_lt.2 hnew, hsign]
  · rw [AnalogInput.set_just_activated_digital_self, hov]
    simp [not_lt.2 hnew, hsign]
  · norm_num [AnalogInput.mkDefault, AnalogInput.set, AnalogInput.justActivated,
      AnalogInput.value, AnalogInputValue.fromF32, rustClamp, f32Signum,
      Deadzone.fromValue, insertKey, removeKey, insertMap, DEFAULT_DEADZONE,
      DEFAULT_DEADZONE_DIGITAL, ANALOG_MIN, ANALOG_MAX, abs, max_def]

/-- Witness for claim C1: the sign-flip scenario on the default
container, through the general part of the theorem. -/
theorem set_sign_flip_reactivates_witness :
    (((AnalogInput.mkDefault Nat).set 0 (AnalogInputValue.fromF32 (.finite (4/5)))).set 0
      (AnalogInputValue.fromF32 (.finite (-(4/5))))).just_activated 0 = true :=
  (set_sign_flip_reactivates
    ((AnalogInput.mkDefault Nat).set 0 (AnalogInputValue.fromF32 (.finite (4/5))))
    0 ⟨4/5⟩ (AnalogInputValue.fromF32 (.finite (-(4/5))))
    (by norm_num [AnalogInput.mkDefault, AnalogInput.set, AnalogInputValue.fromF32,
      rustClamp, f32Signum, Deadzone.fromValue, insertKey, removeKey, insertMap,
      DEFAULT_DEADZONE, DEFAULT_DEADZONE_DIGITAL, ANALOG_MIN, ANALOG_MAX, abs, max_def])
    (by norm_num [AnalogInputValue.fromF32, rustClamp, f32Signum, ANALOG_MIN,
      ANALOG_MAX])).1
    (by norm_num [AnalogInput.set_deadzone, AnalogInput.mkDefault, DEFAULT_DEADZONE,
      abs, max_def])
    (by norm_num [AnalogInput.set_deadzone, AnalogInput.mkDefault, DEFAULT_DEADZONE,
      AnalogInputValue.fromF32, rustClamp, ANALOG_MIN, ANALOG_MAX, abs, max_def])

/-- Claim C2: a set call whose new magnitude is at or above a threshold
never leaves the key in the corresponding deactivated set; a key is
added to a deactivated set only when the new magnitude is strictly
below the threshold and the prior sample's magnitude was at or above
it; keys other than the set key keep their membership. -/
theorem set_deactivation_asymmetry {T : Type} [DecidableEq T]
    (s : AnalogInput T) (input : T) (v : AnalogInputValue) :
    (s.deadzone.mag ≤ |v.val| → (s.set input v).just_deactivated input = false) ∧
    (s.deadzone_digital.mag ≤ |v.val| →
      (s.set input v).just_deactivated_digital input = false) ∧
    ((s.set input v).just_deactivated input = true →
      s.just_deactivated input = false →
      |v.val| < s.deadzone.mag ∧
        ∃ ov, s.inputs input = some ov ∧ s.deadzone.mag ≤ |ov.val|) ∧
    ((s.set input v).just_deactivated_digital input = true →
      s.just_deactivated_digital input = false →
      |v.val| < s.deadzone_digital.mag ∧
        ∃ ov, s.inputs input = some ov ∧ s.deadzone_digital.mag ≤ |ov.val|) ∧
    (∀ k, k ≠ input →
      (s.set input v).just_deactivated k = s.just_deactivated k ∧
      (s.set input v).just_deactivated_digital k = s.just_deactivated_digital k) := by
  refine ⟨?_, ?_, ?_, ?_, fun k hk => ⟨(AnalogInput.set_other s input v k hk).2.1,
    (AnalogInput.set_other s input v k hk).2.2.2⟩⟩
  · intro hnew
    rw [AnalogInput.set_just_deactivated_self]
    cases hov : s.inputs input <;> simp [not_lt.2 hnew, hnew]
  · intro hnew
    rw [AnalogInput.set_just_deactivated_digital_self]
    cases hov : s.inputs input <;> simp [not_lt.2 hnew, hnew]
  · rw [AnalogInput.set_just_deactivated_self]
    cases hov : s.inputs input with
    | none =>
        intro h1 h2
        split_ifs at h1 <;> simp_all
    | some ov =>
        intro h1 h2
        split_ifs at h1 with hlt hge <;> simp_all
  · rw [AnalogInput.set_just_deactivated_digital_self]
    cases hov : s.inputs input with
    | none =>
        intro h1 h2
        split_ifs at h1 <;> simp_all
    | some ov =>
        intro h1 h2
        split_ifs at h1 with hlt hge <;> simp_all

/-- Witness for claim C2 on the default container with sample 0.6. -/
theorem set_deactivation_asymmetry_witness :
    ((AnalogInput.mkDefault Nat).set 0
      (AnalogInputValue.fromF32 (.finite (3/5)))).just_deactivated 0 = false :=
  (set_deactivation_asymmetry (AnalogInput.mkDefault Nat) 0
    (AnalogInputValue.fromF32 (.finite (3/5)))).1
    (by norm_num [AnalogInput.mkDefault, DEFAULT_DEADZONE, AnalogInputValue.fromF32,
      rustClamp, ANALOG_MIN, ANALOG_MAX, abs, max_def])

/-- In every reachable container, a key with no stored sample — that
is, a key never passed to set, since set always stores and the map
never shrinks — belongs to none of the four transition sets. -/
theorem unset_key_in_no_transition_set {T : Type} [DecidableEq T]
    (s : AnalogInput T) (h : Reachable s) (k : T) :
    s.inputs k = none →
      s.just_activated k = false ∧ s.just_deactivated k = false ∧
      s.just_activated_digital k = false ∧ s.just_deactivated_digital k = false := by
  induction h with
  | mkDefault =>
      intro _
      simp [AnalogInput.mkDefault]
  | set s input v _ ih =>
      intro hk
      rw [AnalogInput.set_inputs] at hk
      have hne : k ≠ input := by
        intro he
        simp [insertMap, he] at hk
      have hk' : s.inputs k = none := by
        simpa [insertMap, hne] using hk
      obtain ⟨h1, h2, h3, h4⟩ := AnalogInput.set_other s input v k hne
      rw [h1, h2, h3, h4]
      exact ih hk'
  | update s _ _ =>
      intro _
      simp [AnalogInput.update]

/-- Claim C3: value returns the stored value exactly when the stored
magnitude strictly exceeds the analog deadzone and 0 otherwise; in any
reachable container, a key never passed to set gives value 0,
justActivated none and justDeactivated false — in particular every key
of a fresh default container does. -/
theorem value_characterization {T : Type} [DecidableEq T]
    (s : AnalogInput T) (input : T) (k : Nat)
    (r : AnalogInput T) (hr : Reachable r) (u : T) :
    (∀ v, s.inputs input = some v →
      s.value input = if s.deadzone.mag < |v.val| then v.val else 0) ∧
    (s.inputs input = none → s.value input = 0) ∧
    (r.inputs u = none →
      r.value u = 0 ∧ r.justActivated u = none ∧ r.justDeactivated u = false) ∧
    (AnalogInput.mkDefault Nat).value k = 0 ∧
    (AnalogInput.mkDefault Nat).justActivated k = none ∧
    (AnalogInput.mkDefault Nat).justDeactivated k = false := by
  refine ⟨fun v hv => ?_, fun hn => ?_, fun hu => ?_, rfl, rfl, rfl⟩
  · simp [AnalogInput.value, hv, Deadzone.fromValue]
  · simp [AnalogInput.value, hn]
  · obtain ⟨h1, h2, _, _⟩ := unset_key_in_no_transition_set r hr u hu
    exact ⟨by simp [AnalogInput.value, hu],
      by simp [AnalogInput.justActivated, h1],
      by simp [AnalogInput.justDeactivated, h2]⟩

/-- Witness for claim C3 on a container holding 0.6 under key 0: the
stored key reads back 0.6 and the never-set key 1 stays inactive. -/
theorem value_characterization_witness :
    ((AnalogInput.mkDefault Nat).set 0
      (AnalogInputValue.fromF32 (.finite (3/5)))).value 0 = 3/5 ∧
    ((AnalogInput.mkDefault Nat).set 0
      (AnalogInputValue.fromF32 (.finite (3/5)))).justActivated 1 = none := by
  have h := value_characterization
    ((AnalogInput.mkDefault Nat).set 0 (AnalogInputValue.fromF32 (.finite (3/5)))) 0 0
    ((AnalogInput.mkDefault Nat).set 0 (AnalogInputValue.fromF32 (.finite (3/5))))
    (Reachable.set _ 0 _ Reachable.mkDefault) 1
  constructor
  · rw [h.1 ⟨3/5⟩
      (by norm_num [AnalogInput.mkDefault, AnalogInput.set, AnalogInputValue.fromF32,
        rustClamp, Deadzone.fromValue, insertKey, removeKey, insertMap,
        DEFAULT_DEADZONE, DEFAULT_DEADZONE_DIGITAL, ANALOG_MIN, ANALOG_MAX, abs, max_def]),
      AnalogInput.set_deadzone]
    norm_num [AnalogInput.mkDefault, DEFAULT_DEADZONE, abs, max_def]
  · exact (h.2.2.1
      (by norm_num [AnalogInput.set_inputs, insertMap, AnalogInput.mkDefault])).2.1

/-- Claim C4: value_digital returns ANALOG_MAX when the stored magnitude
strictly exceeds the digital deadzone and the value is positive,
ANALOG_MIN when it exceeds it and the value is negative, and 0 in every
other case; concretely, on a default container set(key, 0.6) gives
value_digital = 1.0 and a following set(key, 0.4) gives value_digital =
0.0 and just_deactivated_digital = true. -/
theorem valueDigital_characterization {T : Type} [DecidableEq T]
    (s : AnalogInput T) (input : T) (_hdz : 0 ≤ s.deadzone_digital.mag) :
    (∀ v, s.inputs input = some v → s.deadzone_digital.mag < |v.val| →
      (0 < v.val → s.valueDigital input = ANALOG_MAX) ∧
      (v.val < 0 → s.valueDigital input = ANALOG_MIN)) ∧
    (∀ v, s.inputs input = some v → ¬ s.deadzone_digital.mag < |v.val| →
      s.valueDigital input = 0) ∧
    (s.inputs input = none → s.valueDigital input = 0) ∧
    ((AnalogInput.mkDefault Nat).set 0
      (AnalogInputValue.fromF32 (.finite (3/5)))).valueDigital 0 = ANALOG_MAX ∧
    (((AnalogInput.mkDefault Nat).set 0 (AnalogInputValue.fromF32 (.finite (3/5)))).set 0
      (AnalogInputValue.fromF32 (.finite (2/5)))).valueDigital 0 = 0 ∧
    (((AnalogInput.mkDefault Nat).set 0 (AnalogInputValue.fromF32 (.finite (3/5)))).set 0
      (AnalogInputValue.fromF32 (.finite (2/5)))).justDeactivatedDigital 0 = true := by
  refine ⟨fun v hv hmag => ⟨fun hpos => ?_, fun hneg => ?_⟩, fun v hv hmag => ?_,
    fun hn => ?_, ?_, ?_, ?_⟩
  · simp [AnalogInput.valueDigital, hv, Deadzone.fromValue, hmag, not_lt.2 hpos.le]
  · simp [AnalogInput.valueDigital, hv, Deadzone.fromValue, hmag, hneg]
  · simp [AnalogInput.valueDigital, hv, Deadzone.fromValue, hmag]
  · simp [AnalogInput.valueDigital, hn]
  all_goals
    norm_num [AnalogInput.mkDefault, AnalogInput.set, AnalogInput.valueDigital,
      AnalogInput.justDeactivatedDigital, AnalogInputValue.fromF32, rustClamp,
      f32Signum, Deadzone.fromValue, insertKey, removeKey, insertMap,
      DEFAULT_DEADZONE, DEFAULT_DEADZONE_DIGITAL, ANALOG_MIN, ANALOG_MAX, abs, max_def]

/-- Witness for claim C4 on the default container with sample 0.6. -/
theorem valueDigital_characterization_witness :
    ((AnalogInput.mkDefault Nat).set 0
      (AnalogInputValue.fromF32 (.finite (3/5)))).valueDigital 0 = ANALOG_MAX :=
  (valueDigital_characterization
    ((AnalogInput.mkDefault Nat).set 0 (AnalogInputValue.fromF32 (.finite (3/5)))) 0
    (by norm_num [AnalogInput.set_deadzone_digital, AnalogInput.mkDefault,
      DEFAULT_DEADZONE_DIGITAL])).2.2.2.1

/-- Claim C10: a first set whose magnitude equals the analog deadzone
exactly activates the key (set compares non-strictly) while value
returns 0 (the query compares strictly), so just_activated reports
some 0; concretely on a default container with sample 0.1. -/
theorem boundary_activation_zero_value {T : Type} [DecidableEq T]
    (s : AnalogInput T) (input : T) (v : AnalogInputValue)
    (hnone : s.inputs input = none) (heq : |v.val| = s.deadzone.mag) :
    (s.set input v).just_activated input = true ∧
    (s.set input v).value input = 0 ∧
    (s.set input v).justActivated input = some 0 ∧
    ((AnalogInput.mkDefault Nat).set 0
      (AnalogInputValue.fromF32 (.finite (1/10)))).justActivated 0 = some 0 := by
  have hja : (s.set input v).just_activated input = true := by
    rw [AnalogInput.set_just_activated_self, hnone]
    simp [heq.ge]
  have hval : (s.set input v).value input = 0 := by
    simp [AnalogInput.value, AnalogInput.set_inputs, AnalogInput.set_deadzone,
      insertMap, Deadzone.fromValue, heq]
  refine ⟨hja, hval, ?_, ?_⟩
  · simp [AnalogInput.justActivated, hja, hval]
  · norm_num [AnalogInput.mkDefault, AnalogInput.set, AnalogInput.justActivated,
      AnalogInput.value, AnalogInputValue.fromF32, rustClamp, f32Signum,
      Deadzone.fromValue, insertKey, removeKey, insertMap, DEFAULT_DEADZONE,
      DEFAULT_DEADZONE_DIGITAL, ANALOG_MIN, ANALOG_MAX, abs, max_def]

/-- Witness for claim C10 at the exact-threshold sample 0.1. -/
theorem boundary_activation_zero_value_witness :
    ((AnalogInput.mkDefault Nat).set 0
      (AnalogInputValue.fromF32 (.finite (1/10)))).just_activated 0 = true :=
  (boundary_activation_zero_value (AnalogInput.mkDefault Nat) 0
    (AnalogInputValue.fromF32 (.finite (1/10))) rfl
    (by norm_num [AnalogInput.mkDefault, DEFAULT_DEADZONE, AnalogInputValue.fromF32,
      rustClamp, ANALOG_MIN, ANALOG_MAX, abs, max_def])).1

/-- Mutual exclusion of the activated and deactivated sets, for both
threshold pairs. -/
def MutexInv {T : Type} (s : AnalogInput T) : Prop :=
  ∀ k, ¬(s.just_activated k = true ∧ s.just_deactivated k = true) ∧
       ¬(s.just_activated_digital k = true ∧ s.just_deactivated_digital k = true)

/-- The default container satisfies mutual exclusion. -/
theorem mutexInv_mkDefault (T : Type) [DecidableEq T] :
    MutexInv (AnalogInput.mkDefault T) := by
  intro k
  simp [AnalogInput.mkDefault]

/-- update preserves mutual exclusion (it empties all four sets). -/
theorem mutexInv_update {T : Type} [DecidableEq T] (s : AnalogInput T) :
    MutexInv s.update := by
  intro k
  simp [AnalogInput.update]

/-- set preserves mutual exclusion. -/
theorem mutexInv_set {T : Type} [DecidableEq T] (s : AnalogInput T)
    (input : T) (v : AnalogInputValue) (hs : MutexInv s) :
    MutexInv (s.set input v) := by
  intro k
  by_cases hk : k = input
  · subst hk
    constructor
    · rw [AnalogInput.set_just_activated_self, AnalogInput.set_just_deactivated_self]
      cases hov : s.inputs k <;> split_ifs <;> simp_all
      intro h1
      rcases hb : s.just_deactivated k with _ | _
      · rfl
      · exact absurd ⟨h1, hb⟩ (hs k).1
    · rw [AnalogInput.set_just_activated_digital_self,
        AnalogInput.set_just_deactivated_digital_self]
      cases hov : s.inputs k <;> split_ifs <;> simp_all
      intro h1
      rcases hb : s.just_deactivated_digital k with _ | _
      · rfl
      · exact absurd ⟨h1, hb⟩ (hs k).2
  · obtain ⟨h1, h2, h3, h4⟩ := AnalogInput.set_other s input v k hk
    rw [h1, h2, h3, h4]
    exact hs k

/-- Claim C5: in every container reachable from the default one by set
and update calls, no key is in both the analog activated and analog
deactivated sets, nor in both digital sets. -/
theorem reachable_mutex {T : Type} [DecidableEq T] (s : AnalogInput T)
    (h : Reachable s) (k : T) :
    ¬(s.just_activated k = true ∧ s.just_deactivated k = true) ∧
    ¬(s.just_activated_digital k = true ∧ s.just_deactivated_digital k = true) := by
  have hinv : MutexInv s := by
    induction h with
    | mkDefault => exact mutexInv_mkDefault T
    | set s input v _ ih => exact mutexInv_set s input v ih
    | update s _ ih => exact mutexInv_update s
  exact hinv k

/-- Witness for claim C5 on a reachable two-set state. -/
theorem reachable_mutex_witness :
    ¬((((AnalogInput.mkDefault Nat).set 0 (AnalogInputValue.fromF32 (.finite (4/5)))).set 0
        (AnalogInputValue.fromF32 (.finite (-(4/5))))).just_activated 0 = true ∧
      (((AnalogInput.mkDefault Nat).set 0 (AnalogInputValue.fromF32 (.finite (4/5)))).set 0
        (AnalogInputValue.fromF32 (.finite (-(4/5))))).just_deactivated 0 = true) :=
  (reachable_mutex _ (Reachable.set _ 0 _ (Reachable.set _ 0 _ Reachable.mkDefault)) 0).1

end Fishsticks
